import Mathlib

/-!
Verification development for the `fastapi-sqlalchemy-toolkit` repository.

The development is a shallow embedding of the library's data-access layer:
`ModelManager` (fastapi_sqlalchemy_toolkit/model_manager.py) and the parts of
the legacy `BaseCRUD` (fastapi_sqlalchemy_toolkit/db_crud.py) that the claims
reference.  Python dictionaries become association lists over an inductive
`Value` type, the SQLAlchemy session/database pair becomes an explicit state
record, statements (`Select`) become a symbolic `Stmt` record with an
executable semantics `runStmt`, and code that raises `fastapi.HTTPException`
returns `Except HTTPException _`.

Scope notes (all marked again at the definitions they concern):
* many-to-many field values are id *lists*; the `handle_m2m_fields` step of
  `run_db_validation` is guarded by `if self.m2m_relationships:` in the
  source, and managers embedded here carry no m2m relationships, so the
  step is omitted;
* reverse-relationship simple filters (`get_reverse_relation_filter_stmt`)
  and `get_joins` concern filters on *related* models; the embedded filters
  reference columns of the manager's own model, for which both are no-ops.
-/

namespace FSTK

/-- Python scalar values as they appear in the library's dictionaries.
`vnone` is Python `None`; `nullq` is the `NullableQuery` sentinel value from
`fastapi_sqlalchemy_toolkit.filters`. -/
inductive Value where
  | vnone : Value
  | vint : Int → Value
  | vstr : String → Value
  | vbool : Bool → Value
  | nullq : Value
deriving DecidableEq, Repr

/-- Rendering of a value inside exception detail strings (Python `f"{value}"`). -/
def Value.toStr : Value → String
  | .vnone => "None"
  | .vint n => toString n
  | .vstr s => s
  | .vbool b => if b then "True" else "False"
  | .nullq => "null"

/-- A Python `dict[str, Any]` (the library's `ModelDict`), embedded as an
association list with the dict's insertion order. -/
abbrev Dict := List (String × Value)

/-- Dictionary lookup with Python's `dict.get(key)` default of `None`. -/
def getV (d : Dict) (k : String) : Value :=
  match d.find? (fun p => p.1 == k) with
  | some p => p.2
  | none => Value.vnone

/-- Membership test, Python `key in dict`. -/
def dictHasKey (d : Dict) (k : String) : Bool :=
  d.any (fun p => p.1 == k)

/-- Assignment `d[k] = v`: overwrite in place if the key exists, else append
(Python dicts keep insertion order). -/
def dictSet (d : Dict) (k : String) (v : Value) : Dict :=
  if d.any (fun p => p.1 == k) then
    d.map (fun p => if p.1 == k then (k, v) else p)
  else
    d ++ [(k, v)]

/-- Python `d.update(upd)`. -/
def dictUpdate (d upd : Dict) : Dict :=
  upd.foldl (fun acc p => dictSet acc p.1 p.2) d

/-- The web framework's HTTP exception, `fastapi.HTTPException`. -/
structure HTTPException where
  status_code : Nat
  detail : String
deriving DecidableEq, Repr

/-- Status code of the exception carried by an `Except` result, if any. -/
def errStatus {α : Type} : Except HTTPException α → Option Nat
  | .error e => some e.status_code
  | .ok _ => none

/-- Whether an `Except` result is an error. -/
def isErr {ε α : Type} : Except ε α → Bool
  | .error _ => true
  | .ok _ => false

/-- An ORDER BY item: a model column, possibly `.desc()`. This stands for the
`InstrumentedAttribute | UnaryExpression` ordering arguments of the source. -/
structure OrderItem where
  col : String
  descending : Bool
deriving DecidableEq, Repr

/-- A `.where()` clause, embedded by its evaluation on a row. -/
abbrev WhereC := Dict → Bool

/-- Symbolic form of a SQLAlchemy `Select` as the manager builds it:
`filter_by` equality conjuncts, `.where()` clauses, ORDER BY items, and the
LIMIT/OFFSET values. -/
structure Stmt where
  filterBys : List (String × Value)
  whereCs : List WhereC
  orderBys : List OrderItem
  slimit : Option Nat
  soffset : Option Nat

/-- The statement `select(self.model)` (also standing in for
`select(self.model.id)`: projection does not affect which rows match). -/
def emptyStmt : Stmt := ⟨[], [], [], none, none⟩

/-- Append a `.filter()` / `.where()` clause to a statement. -/
def addWhere (s : Stmt) (w : WhereC) : Stmt :=
  { s with whereCs := s.whereCs ++ [w] }

/-- Does a row satisfy the statement's `filter_by` and `where` conjuncts?
A `filter_by(k=v)` compiles to SQL equality; comparison with `None` renders
as IS NULL, which in this value model is again equality with `vnone`. -/
def rowMatches (s : Stmt) (row : Dict) : Bool :=
  s.filterBys.all (fun p => getV row p.1 == p.2) && s.whereCs.all (fun w => w row)

/-- Total comparison rank used to order heterogeneous values. -/
def Value.rank : Value → Nat
  | .vnone => 0
  | .vbool _ => 1
  | .vint _ => 2
  | .vstr _ => 3
  | .nullq => 4

/-- A total `≤` test on values: by rank, then by payload. -/
def Value.leb : Value → Value → Bool
  | .vint a, .vint b => a ≤ b
  | .vstr a, .vstr b => a ≤ b
  | .vbool a, .vbool b => !a || b
  | a, b => a.rank ≤ b.rank

/-- Row comparison against a list of ORDER BY items, most significant first. -/
def rowLeb : List OrderItem → Dict → Dict → Bool
  | [], _, _ => true
  | o :: rest, a, b =>
    let va := getV a o.col
    let vb := getV b o.col
    if va == vb then rowLeb rest a b
    else if o.descending then Value.leb vb va
    else Value.leb va vb

/-- Insert into a sorted list, keeping the sort stable. -/
def insertSorted (le : Dict → Dict → Bool) (x : Dict) : List Dict → List Dict
  | [] => [x]
  | y :: ys => if le x y then x :: y :: ys else y :: insertSorted le x ys

/-- Stable insertion sort of the result rows. -/
def sortRows (obs : List OrderItem) (rows : List Dict) : List Dict :=
  rows.foldr (insertSorted (rowLeb obs)) []

/-- The database state a session points at: the manager's own table plus, for
each related table name, the set of existing primary keys (enough for
`session.get(RelatedModel, pk)` existence checks). -/
structure DB where
  table : List Dict
  related : List (String × List Value)

/-- Existence check behind `session.get(related_model, pk)`. -/
def relatedExists (db : DB) (tbl : String) (pk : Value) : Bool :=
  pk ∈ (db.related.lookup tbl).getD []

/-- Execution of an assembled statement: WHERE conjuncts select the rows,
ORDER BY sorts them, then OFFSET skips and LIMIT truncates — in SQL the
LIMIT/OFFSET always apply after the WHERE clauses, however the statement
was built up. -/
def runStmt (db : DB) (s : Stmt) : List Dict :=
  let rows := db.table.filter (rowMatches s)
  let rows := sortRows s.orderBys rows
  let rows := rows.drop (s.soffset.getD 0)
  match s.slimit with
  | some l => rows.take l
  | none => rows

/-- The SQLAlchemy async session as the library touches it: the database it
writes through, whether `session.sync_session._trans_context_manager` is set
(a `begin once` block is active), and counters of the `flush`/`commit` calls
issued so far. -/
structure Session where
  db : DB
  in_trans_context : Bool
  flushes : Nat
  commits : Nat

/-- ModelManager.save (model_manager.py lines 841-860): inside a begin-once
transaction context flush; otherwise commit when `commit` is set, else
flush. -/
def save (s : Session) (commit : Bool) : Session :=
  if s.in_trans_context then
    { s with flushes := s.flushes + 1 }
  else if commit then
    { s with commits := s.commits + 1 }
  else
    { s with flushes := s.flushes + 1 }

/-- Status constants of `fastapi.status` as the source uses them. -/
def HTTP_400_BAD_REQUEST : Nat := 400

/-- Status constant `fastapi.status.HTTP_404_NOT_FOUND`. -/
def HTTP_404_NOT_FOUND : Nat := 404

/-- Status constant `fastapi.status.HTTP_409_CONFLICT` (the HTTP
conflict/duplicate code; never referenced by the source). -/
def HTTP_409_CONFLICT : Nat := 409

/-- Status constant `fastapi.status.HTTP_422_UNPROCESSABLE_ENTITY`. -/
def HTTP_422_UNPROCESSABLE_ENTITY : Nat := 422

/-- SQL column types the `__init__` server-default conversion dispatches on
(`BOOLEAN`, `Integer`, `String`, anything else). -/
inductive CType where
  | cbool : CType
  | cint : CType
  | cstr : CType
  | cother : CType
deriving DecidableEq, Repr

/-- A mapped column of the entity class: its name, `nullable` and `unique`
flags, whether `attr.default` is set and, when that default is a
`ScalarElementColumnDefault`, its scalar value; the `server_default` argument
string when present; and the column type. -/
structure ColumnDef where
  name : String
  nullable : Bool
  unique : Bool
  hasDefault : Bool
  scalarDefault : Option Value
  serverDefault : Option String
  ctype : CType
deriving DecidableEq, Repr

/-- A relationship attribute of the entity class: its attribute name, the
related model's table, whether `attr.prop.collection_class == list` (a
reverse relationship), the foreign-key column name taken from
`str(attr.expression.right)`, and whether `attr.prop.secondary` is set
(a many-to-many relationship). -/
structure RelationshipDef where
  attrName : String
  relatedTable : String
  isList : Bool
  fkColumn : String
  hasSecondary : Bool
deriving DecidableEq, Repr

/-- A `UniqueConstraint` entry of `__table_args__`: its column names and the
`postgresql_nulls_not_distinct` dialect flag. -/
structure ConstraintDef where
  cols : List String
  nullsNotDistinct : Bool
deriving DecidableEq, Repr

/-- The entity class definition that `ModelManager.__init__` reflects over. -/
structure ModelDef where
  tablename : String
  columns : List ColumnDef
  relationships : List RelationshipDef
  tableArgs : List ConstraintDef
deriving DecidableEq, Repr

/-- One step of the `__init__` defaults loop (model_manager.py lines
120-135) for a single column: a nullable column contributes `None`, then a
scalar `default` overwrites it, else a typed `server_default` conversion. -/
def columnDefaults (acc : Dict) (c : ColumnDef) : Dict :=
  let acc := if c.nullable then dictSet acc c.name Value.vnone else acc
  if c.hasDefault then
    match c.scalarDefault with
    | some v => dictSet acc c.name v
    | none => acc
  else
    match c.serverDefault with
    | some arg =>
      match c.ctype with
      | .cbool => dictSet acc c.name (Value.vbool (arg != "False"))
      | .cint => dictSet acc c.name (Value.vint ((arg.toInt?).getD 0))
      | .cstr => dictSet acc c.name (Value.vstr arg)
      | .cother => acc
    | none => acc

/-- The manager with the metadata `__init__` derives from the entity class:
foreign-key map, unique-constraint column lists (split on
`postgresql_nulls_not_distinct`), reverse/many-to-many relationship maps,
the related-model-to-attribute map used for joins, field defaults, and the
default ordering. -/
structure ModelManager where
  model : ModelDef
  default_ordering : Option OrderItem
  fk_name_to_model : List (String × String)
  unique_constraints : List (List String)
  nullable_unique_constraints : List (List String)
  reverse_relationships : List (String × String)
  m2m_relationships : List (String × String)
  models_to_relationship_attrs : List (String × String)
  defaults : Dict

/-- ModelManager.__init__ (model_manager.py lines 46-136).  The source
builds all maps in one pass over the class attributes; each map receives an
entry from an independent condition on the attribute, so they are computed
here as independent passes with the same contents and order. -/
def initManager (model : ModelDef) (default_ordering : Option OrderItem) : ModelManager :=
  { model := model
    default_ordering := default_ordering
    unique_constraints :=
      (model.tableArgs.filter (fun ta => !ta.nullsNotDistinct)).map (fun ta => ta.cols)
    nullable_unique_constraints :=
      (model.tableArgs.filter (fun ta => ta.nullsNotDistinct)).map (fun ta => ta.cols)
    fk_name_to_model :=
      (model.relationships.filter (fun r => !r.isList)).map
        (fun r => (r.fkColumn, r.relatedTable))
    reverse_relationships :=
      (model.relationships.filter (fun r => r.isList)).map
        (fun r => (r.attrName, r.relatedTable))
    m2m_relationships :=
      (model.relationships.filter (fun r => r.hasSecondary)).map
        (fun r => (r.attrName, r.relatedTable))
    models_to_relationship_attrs :=
      model.relationships.map (fun r => (r.relatedTable, r.attrName))
    defaults := model.columns.foldl columnDefaults [] }

/-- ModelManager.get_select: the passed base statement, else
`select(self.model)`. -/
def get_select (_m : ModelManager) (base_stmt : Option Stmt) : Stmt :=
  match base_stmt with
  | some b => b
  | none => emptyStmt

/-- ModelManager.get_order_by_expression (lines 947-962): the explicit
`order_by` followed by the default ordering when both are set, the explicit
one alone when only it is set, else the default ordering alone. -/
def get_order_by_expression (m : ModelManager) (order_by : Option OrderItem) :
    Option (List OrderItem) :=
  match order_by with
  | some ob =>
    match m.default_ordering with
    | some d => some [ob, d]
    | none => some [ob]
  | none => m.default_ordering.map (fun d => [d])

/-- ModelManager.assemble_stmt (lines 1006-1060).  The reverse-relationship
branch (lines 1023-1028) fires only for simple-filter keys naming reverse
relationships, whose values are id lists; the filters embedded in this
development name columns of the manager's own model, so every simple filter
reaches `filter_by`.  The `options` loop configures relationship loading and
does not change which rows match. -/
def assemble_stmt (m : ModelManager) (base_stmt : Option Stmt)
    (order_by : Option OrderItem) (w : Option WhereC)
    (limit offset : Option Nat) (simple_filters : List (String × Value)) : Stmt :=
  let stmt := match base_stmt with
    | some b => b
    | none => get_select m base_stmt
  let stmt := if simple_filters.isEmpty then stmt
    else { stmt with filterBys := stmt.filterBys ++ simple_filters }
  let stmt := match get_order_by_expression m order_by with
    | some items => { stmt with orderBys := stmt.orderBys ++ items }
    | none => stmt
  let stmt := match w with
    | some wc => addWhere stmt wc
    | none => stmt
  let stmt := match limit with
    | some l => { stmt with slimit := some l }
    | none => stmt
  match offset with
  | some o => { stmt with soffset := some o }
  | none => stmt

/-- ModelManager.exists (lines 329-354): assemble `select(self.model.id)`
with the filters and test whether `result.first()` is not `None`. -/
def mexists (m : ModelManager) (db : DB) (w : Option WhereC)
    (simple_filters : List (String × Value)) : Bool :=
  !(runStmt db (assemble_stmt m (some emptyStmt) none w none none simple_filters)).isEmpty

/-- The where-clause `self.model.id != excl` that the validators build from
`in_obj.get("id")`.  SQLAlchemy renders `col != None` as IS NOT NULL, and a
SQL `!=` against a non-null value is false on NULL rows. -/
def idNotEq (excl : Value) : WhereC := fun row =>
  let rid := getV row "id"
  if excl == Value.vnone then rid != Value.vnone
  else rid != Value.vnone && rid != excl

/-- Recursion underlying ModelManager.validate_fk_exists: the `for key in
in_obj` loop over the input dictionary's entries. -/
def validate_fk_list (m : ModelManager) (db : DB) :
    List (String × Value) → Except HTTPException Unit
  | [] => .ok ()
  | (key, v) :: rest =>
    match m.fk_name_to_model.lookup key with
    | some relTable =>
      if v != Value.vnone then
        if relatedExists db relTable v then
          validate_fk_list m db rest
        else
          .error ⟨HTTP_422_UNPROCESSABLE_ENTITY,
            relTable ++ " с id " ++ v.toStr ++ " не существует."⟩
      else
        validate_fk_list m db rest
    | none => validate_fk_list m db rest

/-- ModelManager.validate_fk_exists (lines 1062-1083): for every key of the
input that is a foreign-key field with a non-None value, require a related
object with that primary key to exist, else raise HTTP 422. -/
def validate_fk_exists (m : ModelManager) (db : DB) (in_obj : Dict) :
    Except HTTPException Unit :=
  validate_fk_list m db in_obj

/-- One iteration of the ModelManager.validate_unique_fields column loop
(lines 1147-1168): only unique columns present in the input with a non-None
value are checked; an unchanged value on the object being updated is
skipped; otherwise an existence query on that column, excluding the object's
own id, decides whether to raise HTTP 422. -/
def check_unique_column (m : ModelManager) (db : DB) (db_obj : Option Dict)
    (in_obj : Dict) (col : ColumnDef) : Except HTTPException Unit :=
  if col.unique && dictHasKey in_obj col.name && getV in_obj col.name != Value.vnone then
    if (match db_obj with
        | some d => getV d col.name == getV in_obj col.name
        | none => false) then
      .ok ()
    else if mexists m db (some (idNotEq (getV in_obj "id")))
        [(col.name, getV in_obj col.name)] then
      .error ⟨HTTP_422_UNPROCESSABLE_ENTITY,
        m.model.tablename ++ " c " ++ col.name ++ " "
          ++ (getV in_obj col.name).toStr ++ " уже существует"⟩
    else
      .ok ()
  else
    .ok ()

/-- Recursion underlying the validate_unique_fields loop over the model's
columns. -/
def validate_unique_columns_list (m : ModelManager) (db : DB) (db_obj : Option Dict)
    (in_obj : Dict) : List ColumnDef → Except HTTPException Unit
  | [] => .ok ()
  | c :: rest =>
    match check_unique_column m db db_obj in_obj c with
    | .error e => .error e
    | .ok _ => validate_unique_columns_list m db db_obj in_obj rest

/-- ModelManager.validate_unique_fields (lines 1138-1168). -/
def validate_unique_fields (m : ModelManager) (db : DB) (in_obj : Dict)
    (db_obj : Option Dict) : Except HTTPException Unit :=
  validate_unique_columns_list m db db_obj in_obj m.model.columns

/-- The query dictionary a (non-nullable) unique-constraint check issues:
the constraint's fields with their input values, None-valued fields
excluded (lines 1092-1095). -/
def constraint_query (in_obj : Dict) (uc : List String) : List (String × Value) :=
  uc.foldl (fun q f => if getV in_obj f != Value.vnone then q ++ [(f, getV in_obj f)] else q) []

/-- One iteration of the ModelManager.validate_unique_constraints loop
(lines 1091-1108). -/
def check_unique_constraint (m : ModelManager) (db : DB) (in_obj : Dict)
    (uc : List String) : Except HTTPException Unit :=
  if mexists m db (some (idNotEq (getV in_obj "id"))) (constraint_query in_obj uc) then
    .error ⟨HTTP_422_UNPROCESSABLE_ENTITY,
      m.model.tablename ++ " с такими " ++ String.intercalate ", " uc
        ++ " уже существует."⟩
  else
    .ok ()

/-- Recursion underlying the validate_unique_constraints loop. -/
def validate_constraints_list (m : ModelManager) (db : DB) (in_obj : Dict) :
    List (List String) → Except HTTPException Unit
  | [] => .ok ()
  | uc :: rest =>
    match check_unique_constraint m db in_obj uc with
    | .error e => .error e
    | .ok _ => validate_constraints_list m db in_obj rest

/-- ModelManager.validate_unique_constraints (lines 1085-1108). -/
def validate_unique_constraints (m : ModelManager) (db : DB) (in_obj : Dict) :
    Except HTTPException Unit :=
  validate_constraints_list m db in_obj m.unique_constraints

/-- One iteration of ModelManager.validate_nullable_unique_constraints
(lines 1117-1136): the constraint is skipped outright when any of its fields
is None in the input; otherwise all fields enter the existence query. -/
def check_nullable_unique_constraint (m : ModelManager) (db : DB) (in_obj : Dict)
    (uc : List String) : Except HTTPException Unit :=
  if uc.any (fun f => getV in_obj f == Value.vnone) then
    .ok ()
  else if mexists m db (some (idNotEq (getV in_obj "id")))
      (uc.map (fun f => (f, getV in_obj f))) then
    .error ⟨HTTP_422_UNPROCESSABLE_ENTITY,
      m.model.tablename ++ " с такими " ++ String.intercalate ", " uc
        ++ " уже существует."⟩
  else
    .ok ()

/-- Recursion underlying the validate_nullable_unique_constraints loop. -/
def validate_nullable_constraints_list (m : ModelManager) (db : DB) (in_obj : Dict) :
    List (List String) → Except HTTPException Unit
  | [] => .ok ()
  | uc :: rest =>
    match check_nullable_unique_constraint m db in_obj uc with
    | .error e => .error e
    | .ok _ => validate_nullable_constraints_list m db in_obj rest

/-- ModelManager.validate_nullable_unique_constraints (lines 1110-1136). -/
def validate_nullable_unique_constraints (m : ModelManager) (db : DB) (in_obj : Dict) :
    Except HTTPException Unit :=
  validate_nullable_constraints_list m db in_obj m.nullable_unique_constraints

/-- The module-level helper sqlalchemy_model_to_dict (lines 39-42): the
object's attribute dictionary without its `_sa_instance_state` entry, which
this embedding does not carry. -/
def sqlalchemy_model_to_dict (d : Dict) : Dict := d

/-- ModelManager.run_db_validation (lines 862-882): merge the updated
object's stored attributes under the input, then run the validators in
source order.  `handle_m2m_fields` is guarded by
`if self.m2m_relationships:`; managers in this development declare no
many-to-many relationships (their field values are id lists, outside this
value model), so that guarded call never fires. -/
def run_db_validation (m : ModelManager) (db : DB) (in_obj : Dict)
    (db_obj : Option Dict) : Except HTTPException Dict :=
  let in_obj := match db_obj with
    | some d => dictUpdate (sqlalchemy_model_to_dict d) in_obj
    | none => in_obj
  match (if !m.fk_name_to_model.isEmpty then validate_fk_exists m db in_obj
         else .ok ()) with
  | .error e => .error e
  | .ok _ =>
    match validate_unique_fields m db in_obj db_obj with
    | .error e => .error e
    | .ok _ =>
      match validate_unique_constraints m db in_obj with
      | .error e => .error e
      | .ok _ =>
        match validate_nullable_unique_constraints m db in_obj with
        | .error e => .error e
        | .ok _ => .ok in_obj

/-- The defaults-filling loop of ModelManager.create (lines 173-175):
fields the manager knows a default for and that the input lacks are added. -/
def withDefaults (m : ModelManager) (create_data : Dict) : Dict :=
  m.defaults.foldl
    (fun cd p => if dictHasKey cd p.1 then cd else cd ++ [(p.1, p.2)]) create_data

/-- ModelManager.create (lines 141-182): merge the schema dump with the
extra attributes, fill defaults, validate against the database, and only
then construct the object, add it to the session and save.  `in_obj` stands
for `in_obj.model_dump()`; `session.refresh` reloads attributes and does not
change the stored row. -/
def create (m : ModelManager) (s : Session) (in_obj : Dict) (attrs : Dict)
    (commit : Bool) : Session × Except HTTPException Dict :=
  let create_data := dictUpdate in_obj attrs
  let create_data := withDefaults m create_data
  match run_db_validation m s.db create_data none with
  | .error e => (s, .error e)
  | .ok _ =>
    let s1 : Session := { s with db := { s.db with table := s.db.table ++ [create_data] } }
    let s2 := save s1 commit
    (s2, .ok create_data)

/-- ModelManager.update (lines 686-734): validate the merged input against
the database first; only on success are the fields written onto the object
(every key of the merged dictionary is set) and the session saved.
`in_obj` stands for `in_obj.model_dump(exclude_unset=...)` merged with the
extra attributes. -/
def update (m : ModelManager) (s : Session) (db_obj : Dict) (in_obj : Dict)
    (commit : Bool) : Session × Except HTTPException Dict :=
  match run_db_validation m s.db in_obj (some db_obj) with
  | .error e => (s, .error e)
  | .ok update_data =>
    let new_obj := dictUpdate db_obj update_data
    let newTable :=
      s.db.table.map (fun r => if getV r "id" == getV db_obj "id" then new_obj else r)
    let s1 : Session := { s with db := { s.db with table := newTable } }
    let s2 := save s1 commit
    (s2, .ok new_obj)

/-- ModelManager.delete (lines 786-803): `session.delete(db_obj)` then
save. -/
def mdelete (_m : ModelManager) (s : Session) (db_obj : Dict) (commit : Bool) :
    Session × Dict :=
  let newTable := s.db.table.filter (fun r => getV r "id" != getV db_obj "id")
  let s1 : Session := { s with db := { s.db with table := newTable } }
  (save s1 commit, db_obj)

/-- Python truthiness of the `ids` argument: `if ids:` fails for `None` and
for an empty iterable alike. -/
def idsTruthy (ids : Option (List Value)) : Bool :=
  match ids with
  | some l => !l.isEmpty
  | none => false

/-- The WHERE clause bulk_update/bulk_delete attach (lines 774-777 and
830-833): `ids` wins when truthy, else the `where` argument, else no WHERE
clause at all. -/
def bulk_where (_m : ModelManager) (ids : Option (List Value)) (w : Option WhereC) :
    Option WhereC :=
  if idsTruthy ids then
    some (fun row => (ids.getD []).contains (getV row "id"))
  else
    match w with
    | some wc => some wc
    | none => none

/-- ModelManager.bulk_update (lines 736-784): one UPDATE statement with the
clause from `bulk_where`; a missing clause means the statement updates every
row of the table.  Returns the session and the affected rows
(`returning=True`). -/
def bulk_update (m : ModelManager) (s : Session) (upd : Dict)
    (ids : Option (List Value)) (w : Option WhereC) (commit : Bool) :
    Session × List Dict :=
  let cond : Dict → Bool := match bulk_where m ids w with
    | some wc => wc
    | none => fun _ => true
  let newTable := s.db.table.map (fun r => if cond r then dictUpdate r upd else r)
  let s1 : Session := { s with db := { s.db with table := newTable } }
  (save s1 commit, (s.db.table.filter cond).map (fun r => dictUpdate r upd))

/-- ModelManager.bulk_delete (lines 805-835): one DELETE statement with the
clause from `bulk_where`; a missing clause means the statement deletes every
row of the table. -/
def bulk_delete (m : ModelManager) (s : Session) (ids : Option (List Value))
    (w : Option WhereC) (commit : Bool) : Session :=
  let cond : Dict → Bool := match bulk_where m ids w with
    | some wc => wc
    | none => fun _ => true
  let newTable := s.db.table.filter (fun r => !cond r)
  let s1 : Session := { s with db := { s.db with table := newTable } }
  save s1 commit

/-- Result of ModelManager.get on the default `base_stmt=None` path: a model
instance, `None`, or the `MultipleResultsFound` error that
`scalar_one_or_none` raises when no `order_by` was given and several rows
match. -/
inductive GetResult where
  | found : Dict → GetResult
  | notFound : GetResult
  | multiple : GetResult
deriving DecidableEq, Repr

/-- ModelManager.get (lines 226-270), `base_stmt=None` path: run the
assembled statement; with an `order_by` take `scalars().first()`, otherwise
`scalar_one_or_none()`. -/
def mget (m : ModelManager) (db : DB) (order_by : Option OrderItem)
    (w : Option WhereC) (simple_filters : List (String × Value)) : GetResult :=
  let rows := runStmt db (assemble_stmt m none order_by w none none simple_filters)
  match order_by with
  | some _ =>
    match rows.head? with
    | some r => .found r
    | none => .notFound
  | none =>
    match rows with
    | [] => .notFound
    | [r] => .found r
    | _ => .multiple

/-- Errors that can leave get_or_404: the framework HTTP exception the
method raises itself, or an ORM exception propagating out of `get`. -/
inductive AppError where
  | http : HTTPException → AppError
  | orm : String → AppError
deriving DecidableEq, Repr

/-- The `", ".join(f"{key}={value}")` detail fragment of the 404 messages. -/
def filtersDetail (simple_filters : List (String × Value)) : String :=
  String.intercalate ", " (simple_filters.map (fun p => p.1 ++ "=" ++ p.2.toStr))

/-- ModelManager.get_or_404 (lines 272-327): return what `get` found —
model instances are truthy, so `if not db_obj` is exactly the `None` test —
and raise HTTP 404 when it found nothing; the `MultipleResultsFound` raised
inside `get` propagates unchanged. -/
def get_or_404 (m : ModelManager) (db : DB) (order_by : Option OrderItem)
    (w : Option WhereC) (simple_filters : List (String × Value)) :
    Except AppError Dict :=
  match mget m db order_by w simple_filters with
  | .found d => .ok d
  | .notFound =>
    .error (.http ⟨HTTP_404_NOT_FOUND,
      m.model.tablename ++ " with " ++ filtersDetail simple_filters ++ " not found"⟩)
  | .multiple => .error (.orm "MultipleResultsFound")

/-- ModelManager.exists_or_404 (lines 356-397): `True` when `exists` holds,
HTTP 404 otherwise. -/
def exists_or_404 (m : ModelManager) (db : DB) (w : Option WhereC)
    (simple_filters : List (String × Value)) : Except HTTPException Bool :=
  if mexists m db w simple_filters then
    .ok true
  else
    .error ⟨HTTP_404_NOT_FOUND,
      m.model.tablename ++ " with " ++ filtersDetail simple_filters
        ++ " does not exist"⟩

/-- A filter-expression key of `list`/`paginated_list`: either a model
column attribute (applied as `filter_expression == value`) or a bound
column method such as `Model.title.ilike` (applied as
`filter_expression(value)`). -/
inductive FExpr where
  | attr : String → FExpr
  | fn : String → String → FExpr
deriving DecidableEq, Repr

/-- Python `str(filter_expression)`: the column path for an attribute, and a
bound-method representation naming the method for a callable. -/
def FExpr.strOf : FExpr → String
  | .attr col => col
  | .fn col fname => col ++ "." ++ fname

/-- Substring test, Python `sub in s`. -/
def containsSub (s sub : String) : Bool :=
  (s.splitOn sub).length > 1

/-- Python `f"%{value}%"`. -/
def wrapPercent (v : Value) : Value :=
  Value.vstr ("%" ++ v.toStr ++ "%")

/-- Modelled from the spec: `null_query_values` of
fastapi_sqlalchemy_toolkit/filters.py.  model_manager.py imports it, but the
filters.py under src/ is an earlier revision that does not define it.  Per
the spec's "nullable-sentinel handling" and the `NullableQuery` docstrings,
it is the set of sentinel query values that mean "filter by NULL"; the
sentinel is embedded as the dedicated value `Value.nullq`. -/
def null_query_values : List Value := [Value.nullq]

/-- ModelManager.remove_optional_filter_bys (lines 964-970): drop simple
filters whose value is None.  The source deletes from the dictionary in
place over a copy; the embedding returns the resulting dictionary. -/
def remove_optional_filter_bys (filters : List (String × Value)) :
    List (String × Value) :=
  filters.filter (fun p => p.2 != Value.vnone)

/-- ModelManager.handle_filter_expressions (lines 972-982): drop None-valued
entries; wrap the value of an `ilike` expression in percent signs. -/
def handle_filter_expressions (fes : List (FExpr × Value)) : List (FExpr × Value) :=
  fes.filterMap (fun p =>
    if p.2 == Value.vnone then none
    else if containsSub p.1.strOf "ilike" then some (p.1, wrapPercent p.2)
    else some p)

/-- ModelManager.handle_nullable_filter_expressions (lines 984-996): map the
null-query sentinel to None (so the later comparison renders IS NULL), drop
None-valued entries, wrap `ilike` values. -/
def handle_nullable_filter_expressions (fes : List (FExpr × Value)) :
    List (FExpr × Value) :=
  fes.filterMap (fun p =>
    if null_query_values.contains p.2 then some (p.1, Value.vnone)
    else if p.2 == Value.vnone then none
    else if containsSub p.1.strOf "ilike" then some (p.1, wrapPercent p.2)
    else some p)

/-- Assignment into a filter-expression dictionary. -/
def fexprSet (d : List (FExpr × Value)) (k : FExpr) (v : Value) :
    List (FExpr × Value) :=
  if d.any (fun p => p.1 == k) then
    d.map (fun p => if p.1 == k then (k, v) else p)
  else
    d ++ [(k, v)]

/-- Python dictionary merge `a | b`. -/
def fexprUnion (a b : List (FExpr × Value)) : List (FExpr × Value) :=
  b.foldl (fun acc p => fexprSet acc p.1 p.2) a

/-- SQL LIKE pattern matching with the `%` and `_` wildcards. -/
def likeMatch : List Char → List Char → Bool
  | [], [] => true
  | '%' :: ps, [] => likeMatch ps []
  | _ :: _, [] => false
  | [], _ :: _ => false
  | p :: ps, c :: cs =>
    if p == '%' then likeMatch ps (c :: cs) || likeMatch (p :: ps) cs
    else (p == c || p == '_') && likeMatch ps cs
termination_by ps cs => (ps.length, cs.length)

/-- Case-insensitive LIKE, SQL ILIKE. -/
def ilikeb (pat s : String) : Bool :=
  likeMatch pat.toLower.toList s.toLower.toList

/-- Evaluation of a bound column method applied to a filter value.  Only
`ilike` has interpreted semantics here; other methods compare for
equality. -/
def evalFn (fname : String) (colVal arg : Value) : Bool :=
  match fname with
  | "ilike" =>
    match colVal, arg with
    | Value.vstr s, Value.vstr p => ilikeb p s
    | _, _ => false
  | _ => colVal == arg

/-- Evaluation of one filter-expression conjunct on a row.  An attribute key
compiles to `filter_expression == value`; SQLAlchemy renders comparison with
`None` as IS NULL, which in this value model is equality with `vnone`. -/
def evalFExpr (fe : FExpr) (v : Value) (row : Dict) : Bool :=
  match fe with
  | .attr col => getV row col == v
  | .fn col fname => evalFn fname (getV row col) v

/-- The `for filter_expression, value in filter_expressions.items()` loop of
`list` (lines 645-649): each entry adds one `.filter(...)` conjunct. -/
def apply_filter_expressions (st : Stmt) (fes : List (FExpr × Value)) : Stmt :=
  fes.foldl (fun acc p => addWhere acc (fun row => evalFExpr p.1 p.2 row)) st

/-- ModelManager.list (lines 565-657), `base_stmt=None` path: normalize the
three filter families, merge the expression dictionaries, assemble the
statement with limit/offset, add each expression as a conjunct, and run.
`get_joins` adds outer joins only for filters or ordering on related models;
the embedded expressions reference the manager's own columns. -/
def mlist (m : ModelManager) (db : DB) (order_by : Option OrderItem)
    (filter_expressions nullable_filter_expressions : List (FExpr × Value))
    (w : Option WhereC) (limit offset : Option Nat)
    (simple_filters : List (String × Value)) : List Dict :=
  let simple_filters := remove_optional_filter_bys simple_filters
  let fes := handle_filter_expressions filter_expressions
  let nfes := handle_nullable_filter_expressions nullable_filter_expressions
  let fes := fexprUnion fes nfes
  let stmt := assemble_stmt m none order_by w limit offset simple_filters
  let stmt := apply_filter_expressions stmt fes
  runStmt db stmt

/-- ModelManager.paginated_list (lines 435-507): the same filter pipeline as
`list`, without limit/offset arguments; `fastapi_pagination.paginate` then
slices the row set this statement yields. -/
def paginated_list_rows (m : ModelManager) (db : DB) (order_by : Option OrderItem)
    (filter_expressions nullable_filter_expressions : List (FExpr × Value))
    (w : Option WhereC) (simple_filters : List (String × Value)) : List Dict :=
  let simple_filters := remove_optional_filter_bys simple_filters
  let fes := handle_filter_expressions filter_expressions
  let nfes := handle_nullable_filter_expressions nullable_filter_expressions
  let fes := fexprUnion fes nfes
  let stmt := assemble_stmt m none order_by w none none simple_filters
  let stmt := apply_filter_expressions stmt fes
  runStmt db stmt

/-- The legacy BaseCRUD manager (db_crud.py) as far as the claims reference
it: the model's table name and columns. -/
structure BaseCRUD where
  tablename : String
  columns : List ColumnDef

/-- BaseCRUD.exists (db_crud.py lines 172-187): `get_filter_expression`
skips filters whose value is None, the rest conjoin. -/
def crud_exists (_c : BaseCRUD) (db : DB) (filters : List (String × Value)) : Bool :=
  let fs := filters.filter (fun p => p.2 != Value.vnone)
  db.table.any (fun row => fs.all (fun p => getV row p.1 == p.2))

/-- One iteration of the BaseCRUD.validate_unique_fields column loop
(db_crud.py lines 548-561): unlike the ModelManager version there is no
None-value guard, and the violation raises HTTP 400. -/
def crud_check_unique_column (c : BaseCRUD) (db : DB) (db_obj : Option Dict)
    (in_obj : Dict) (col : ColumnDef) : Except HTTPException Unit :=
  if col.unique && dictHasKey in_obj col.name then
    if (match db_obj with
        | some d => getV d col.name == getV in_obj col.name
        | none => false) then
      .ok ()
    else if crud_exists c db [(col.name, getV in_obj col.name)] then
      .error ⟨HTTP_400_BAD_REQUEST,
        c.tablename ++ " c " ++ col.name ++ " "
          ++ (getV in_obj col.name).toStr ++ " уже существует"⟩
    else
      .ok ()
  else
    .ok ()

/-- Recursion underlying the BaseCRUD.validate_unique_fields loop. -/
def crud_validate_unique_list (c : BaseCRUD) (db : DB) (db_obj : Option Dict)
    (in_obj : Dict) : List ColumnDef → Except HTTPException Unit
  | [] => .ok ()
  | col :: rest =>
    match crud_check_unique_column c db db_obj in_obj col with
    | .error e => .error e
    | .ok _ => crud_validate_unique_list c db db_obj in_obj rest

/-- BaseCRUD.validate_unique_fields (db_crud.py lines 539-561). -/
def crud_validate_unique_fields (c : BaseCRUD) (db : DB) (in_obj : Dict)
    (db_obj : Option Dict) : Except HTTPException Unit :=
  crud_validate_unique_list c db db_obj in_obj c.columns

/-- A call to one of the manager's public query, CRUD, or validation
methods, with its arguments. -/
inductive MOp where
  | opCreate : Dict → Dict → Bool → MOp
  | opUpdate : Dict → Dict → Bool → MOp
  | opDelete : Dict → Bool → MOp
  | opBulkUpdate : Dict → Option (List Value) → Option WhereC → Bool → MOp
  | opBulkDelete : Option (List Value) → Option WhereC → Bool → MOp
  | opSave : Bool → MOp
  | opGet : Option OrderItem → Option WhereC → List (String × Value) → MOp
  | opGetOr404 : Option OrderItem → Option WhereC → List (String × Value) → MOp
  | opExists : Option WhereC → List (String × Value) → MOp
  | opFilter : Option OrderItem → Option WhereC → Option Nat → Option Nat →
      List (String × Value) → MOp
  | opList : Option OrderItem → List (FExpr × Value) → List (FExpr × Value) →
      Option WhereC → Option Nat → Option Nat → List (String × Value) → MOp
  | opValidate : Dict → Option Dict → MOp

/-- ModelManager.filter (lines 509-563), `base_stmt=None` path: assemble the
statement with the limit and offset and run it. -/
def mfilter (m : ModelManager) (db : DB) (order_by : Option OrderItem)
    (w : Option WhereC) (limit offset : Option Nat)
    (simple_filters : List (String × Value)) : List Dict :=
  runStmt db (assemble_stmt m none order_by w limit offset simple_filters)

/-- The manager together with the session it operates through. -/
structure MgrState where
  mgr : ModelManager
  sess : Session

/-- Dispatch of one public-method call on the manager state.  Query and
validation methods return values and leave the session as the method left
it; the manager object itself is carried along. -/
def runOp (st : MgrState) (op : MOp) : MgrState :=
  match op with
  | .opCreate i a c => { st with sess := (create st.mgr st.sess i a c).1 }
  | .opUpdate d i c => { st with sess := (update st.mgr st.sess d i c).1 }
  | .opDelete d c => { st with sess := (mdelete st.mgr st.sess d c).1 }
  | .opBulkUpdate u ids w c => { st with sess := (bulk_update st.mgr st.sess u ids w c).1 }
  | .opBulkDelete ids w c => { st with sess := bulk_delete st.mgr st.sess ids w c }
  | .opSave c => { st with sess := save st.sess c }
  | .opGet ob w sf => let _r := mget st.mgr st.sess.db ob w sf; st
  | .opGetOr404 ob w sf => let _r := get_or_404 st.mgr st.sess.db ob w sf; st
  | .opExists w sf => let _r := mexists st.mgr st.sess.db w sf; st
  | .opFilter ob w l o sf => let _r := mfilter st.mgr st.sess.db ob w l o sf; st
  | .opList ob fes nfes w l o sf =>
    let _r := mlist st.mgr st.sess.db ob fes nfes w l o sf; st
  | .opValidate i d => let _r := run_db_validation st.mgr st.sess.db i d; st

/-- A small entity class used as the concrete instance in the witness
theorems below: a `category` table with a primary key (callable default
`uuid4`, hence no scalar default) and a unique `title` column, mirroring
tests/models.py. -/
def exModel : ModelDef :=
  ⟨"category",
   [⟨"id", false, false, true, none, none, .cother⟩,
    ⟨"title", false, true, false, none, none, .cstr⟩],
   [], []⟩

/-- The manager over the example entity class. -/
def exM : ModelManager := initManager exModel none

/-- One stored row of the example table. -/
def exRow : Dict := [("id", Value.vint 1), ("title", Value.vstr "x")]

/-- The example database: one `category` row, no related tables. -/
def exDB : DB := ⟨[exRow], []⟩

/-- The example session over `exDB`, commit-as-you-go mode. -/
def exS : Session := ⟨exDB, false, 0, 0⟩

/-- An entity class with a parent foreign key, a non-nullable unique
constraint and a nullable-aware unique constraint, used as a second concrete
instance. -/
def exModel2 : ModelDef :=
  ⟨"child",
   [⟨"id", false, false, true, none, none, .cother⟩,
    ⟨"title", false, false, false, none, none, .cstr⟩,
    ⟨"slug", true, false, false, none, none, .cstr⟩,
    ⟨"parent_id", false, false, false, none, none, .cother⟩],
   [⟨"parent", "parent", false, "parent_id", false⟩],
   [⟨["title", "parent_id"], false⟩, ⟨["title", "slug"], true⟩]⟩

/-- The manager over the second example entity class. -/
def exM2 : ModelManager := initManager exModel2 none

/-- A database for the second example: one child row, one parent id. -/
def exDB2 : DB :=
  ⟨[[("id", Value.vint 10), ("title", Value.vstr "t"),
     ("slug", Value.vstr "s"), ("parent_id", Value.vint 7)]],
   [("parent", [Value.vint 7])]⟩

/-- A second stored row for the example table. -/
def exRow2 : Dict := [("id", Value.vint 2), ("title", Value.vstr "y")]

/-- The example database with two rows. -/
def exDBd : DB := ⟨[exRow, exRow2], []⟩

/-- A session over the two-row database. -/
def exSd : Session := ⟨exDBd, false, 0, 0⟩

/-- Helper: `save` touches only the flush/commit counters. -/
theorem save_db_eq (s : Session) (c : Bool) :
    (save s c).db = s.db ∧ (save s c).in_trans_context = s.in_trans_context := by
  unfold save
  by_cases h : s.in_trans_context <;> by_cases hc : c <;> simp [h, hc]

/-- Helper: no single method call changes the manager component. -/
theorem runOp_preserves_mgr (st : MgrState) (op : MOp) : (runOp st op).mgr = st.mgr := by
  cases op <;> rfl

/-- Helper: folding any sequence of method calls preserves the manager. -/
theorem foldl_runOp_mgr : ∀ (ops : List MOp) (st : MgrState),
    (ops.foldl runOp st).mgr = st.mgr := by
  intro ops
  induction ops with
  | nil => intro st; rfl
  | cons op rest ih =>
    intro st
    rw [List.foldl_cons, ih, runOp_preserves_mgr]

/-- C7: the manager's state is exactly the metadata `initManager` derives
once from the entity class definition, and no sequence of public query,
CRUD, or validation method calls changes that manager object: after any
operation sequence the manager component still equals what construction
produced. -/
theorem manager_metadata_immutable (md : ModelDef) (d : Option OrderItem)
    (ops : List MOp) (s0 : Session) :
    (ops.foldl runOp ⟨initManager md d, s0⟩).mgr = initManager md d :=
  foldl_runOp_mgr ops ⟨initManager md d, s0⟩

/-- C10: `save` commits exactly when the session is not inside a begin-once
transaction context and the `commit` parameter is true; it flushes exactly
when it is inside such a context or `commit` is false; it never touches the
database state itself. -/
theorem save_commit_flush_characterization (s : Session) (commit : Bool) :
    (save s commit).commits =
      s.commits + (if s.in_trans_context = false ∧ commit = true then 1 else 0) ∧
    (save s commit).flushes =
      s.flushes + (if s.in_trans_context = true ∨ commit = false then 1 else 0) ∧
    (save s commit).db = s.db := by
  unfold save
  by_cases h : s.in_trans_context <;> by_cases hc : commit <;> simp [h, hc]

/-- C9: with an empty `ids` iterable and `where=None`, bulk_update and
bulk_delete attach no WHERE clause at all, so the DELETE empties the table
and the UPDATE rewrites every row; and an empty (or missing) `ids` lets the
`where` argument through instead of taking precedence. -/
theorem bulk_empty_ids_affect_all (m : ModelManager) (s : Session) (upd : Dict)
    (commit : Bool) (wc : WhereC) :
    bulk_where m (some []) none = none ∧
    bulk_where m (some []) (some wc) = some wc ∧
    bulk_where m none (some wc) = some wc ∧
    (bulk_delete m s (some []) none commit).db.table = [] ∧
    (bulk_update m s upd (some []) none commit).1.db.table =
      s.db.table.map (fun r => dictUpdate r upd) ∧
    (bulk_update m s upd (some []) none commit).2 =
      s.db.table.map (fun r => dictUpdate r upd) := by
  refine ⟨rfl, rfl, rfl, ?_, ?_, ?_⟩
  · unfold bulk_delete
    rw [(save_db_eq _ _).1]
    simp [bulk_where, idsTruthy]
  · unfold bulk_update
    rw [(save_db_eq _ _).1]
    simp [bulk_where, idsTruthy]
  · unfold bulk_update
    simp [bulk_where, idsTruthy]

/-- C3: in create and update every database validation runs before any
insert or attribute write: the call fails exactly when `run_db_validation`
fails on the session's database state as it was at entry, and on failure the
session (its database included) is returned unchanged. -/
theorem create_update_atomic_on_validation_error (m : ModelManager) (s : Session)
    (in_obj attrs db_obj : Dict) (commit : Bool) :
    (isErr (create m s in_obj attrs commit).2 = true →
      (create m s in_obj attrs commit).1 = s) ∧
    (isErr (create m s in_obj attrs commit).2 =
      isErr (run_db_validation m s.db (withDefaults m (dictUpdate in_obj attrs)) none)) ∧
    (isErr (update m s db_obj in_obj commit).2 = true →
      (update m s db_obj in_obj commit).1 = s) ∧
    (isErr (update m s db_obj in_obj commit).2 =
      isErr (run_db_validation m s.db in_obj (some db_obj))) := by
  refine ⟨?_, ?_, ?_, ?_⟩
  · intro h
    unfold create at h ⊢
    cases hv : run_db_validation m s.db (withDefaults m (dictUpdate in_obj attrs)) none with
    | error e => simp [hv]
    | ok v => simp [hv, isErr] at h
  · unfold create
    cases hv : run_db_validation m s.db (withDefaults m (dictUpdate in_obj attrs)) none with
    | error e => simp [hv, isErr]
    | ok v => simp [hv, isErr]
  · intro h
    unfold update at h ⊢
    cases hv : run_db_validation m s.db in_obj (some db_obj) with
    | error e => simp [hv]
    | ok v => simp [hv, isErr] at h
  · unfold update
    cases hv : run_db_validation m s.db in_obj (some db_obj) with
    | error e => simp [hv, isErr]
    | ok v => simp [hv, isErr]

/-- Witness for C3: on a concrete duplicate-title create and update,
validation fails and the session comes back exactly as it went in. -/
theorem create_update_atomic_witness :
    (create exM exS [("title", Value.vstr "x")] [] true).1 = exS ∧
    (update exM exSd exRow2 [("title", Value.vstr "x")] true).1 = exSd :=
  ⟨(create_update_atomic_on_validation_error exM exS
      [("title", Value.vstr "x")] [] [] true).1 (by decide),
   (create_update_atomic_on_validation_error exM exSd
      [("title", Value.vstr "x")] [] exRow2 true).2.2.1 (by decide)⟩

/-- C4: get_or_404 returns exactly what get found and raises the framework's
HTTP exception with status 404 precisely when get returns None (the ORM's
MultipleResultsFound, when get itself raises, passes through untouched and
is not a 404); exists_or_404 returns True when exists holds and raises
HTTP 404 precisely when exists is False. -/
theorem get_or_404_characterization (m : ModelManager) (db : DB)
    (ob : Option OrderItem) (w : Option WhereC) (sf : List (String × Value)) :
    (∀ d, mget m db ob w sf = .found d → get_or_404 m db ob w sf = .ok d) ∧
    ((∃ e, get_or_404 m db ob w sf = .error (.http e) ∧
        e.status_code = HTTP_404_NOT_FOUND) ↔
      mget m db ob w sf = .notFound) ∧
    (mexists m db w sf = true → exists_or_404 m db w sf = .ok true) ∧
    ((∃ e, exists_or_404 m db w sf = .error e ∧
        e.status_code = HTTP_404_NOT_FOUND) ↔
      mexists m db w sf = false) := by
  refine ⟨?_, ?_, ?_, ?_⟩
  · intro d h
    unfold get_or_404
    rw [h]
  · cases hg : mget m db ob w sf with
    | found d => simp [get_or_404, hg]
    | notFound => simp [get_or_404, hg, HTTP_404_NOT_FOUND]
    | multiple => simp [get_or_404, hg]
  · intro h
    unfold exists_or_404
    rw [h]
    rfl
  · cases hex : mexists m db w sf <;>
      simp [exists_or_404, hex, HTTP_404_NOT_FOUND]

/-- Witness for C4: on the concrete one-row database, get_or_404 returns the
found row and exists_or_404 returns True. -/
theorem get_or_404_witness :
    get_or_404 exM exDB none none [("title", Value.vstr "x")] = .ok exRow ∧
    exists_or_404 exM exDB none [] = .ok true :=
  ⟨(get_or_404_characterization exM exDB none none [("title", Value.vstr "x")]).1
      exRow (by decide),
   (get_or_404_characterization exM exDB none none []).2.2.1 (by decide)⟩

/-- Helper: the statement `filter`/`list` assemble from a fresh select is
exactly its five components. -/
theorem assemble_stmt_eq (m : ModelManager) (ob : Option OrderItem)
    (w : Option WhereC) (li off : Option Nat) (sf : List (String × Value)) :
    assemble_stmt m none ob w li off sf =
      ⟨(if sf.isEmpty then [] else sf),
       (match w with | some wc => [wc] | none => []),
       (match get_order_by_expression m ob with | some items => items | none => []),
       li, off⟩ := by
  unfold assemble_stmt get_select addWhere emptyStmt
  cases w <;> cases li <;> cases off <;>
    cases hgo : get_order_by_expression m ob <;>
    by_cases hsf : sf.isEmpty <;>
    simp [hsf, hgo]

/-- C8: the statement assembled by filter carries exactly the requested
LIMIT and OFFSET, so the result has at most `limit` rows taken after
dropping `offset` rows of the sorted matching set; and its ordering is the
explicit order_by followed by the manager's default ordering when both are
set, the explicit one alone when only it is set, and the default alone when
order_by is None. -/
theorem filter_limit_offset_ordering (m : ModelManager) (db : DB)
    (ob : Option OrderItem) (w : Option WhereC) (limit offset : Option Nat)
    (l o : Nat) (sf : List (String × Value)) :
    (assemble_stmt m none ob w limit offset sf).slimit = limit ∧
    (assemble_stmt m none ob w limit offset sf).soffset = offset ∧
    (assemble_stmt m none ob w limit offset sf).orderBys =
      (match ob, m.default_ordering with
        | some x, some d => [x, d]
        | some x, none => [x]
        | none, some d => [d]
        | none, none => []) ∧
    (mfilter m db ob w (some l) (some o) sf).length ≤ l ∧
    mfilter m db ob w (some l) (some o) sf =
      ((sortRows (assemble_stmt m none ob w (some l) (some o) sf).orderBys
        (db.table.filter
          (rowMatches (assemble_stmt m none ob w (some l) (some o) sf)))).drop o).take l := by
  refine ⟨?_, ?_, ?_, ?_, ?_⟩
  · rw [assemble_stmt_eq]
  · rw [assemble_stmt_eq]
  · rw [assemble_stmt_eq]
    cases ob <;> cases hd : m.default_ordering <;>
      simp [get_order_by_expression, hd]
  · unfold mfilter
    rw [assemble_stmt_eq]
    unfold runStmt
    simp
  · unfold mfilter runStmt
    rw [assemble_stmt_eq]
    rfl

/-- Helper: error characterization of the foreign-key validation loop. -/
theorem validate_fk_list_err_iff (m : ModelManager) (db : DB) :
    ∀ (l : List (String × Value)),
      isErr (validate_fk_list m db l) = true ↔
        ∃ p ∈ l, ∃ rel, m.fk_name_to_model.lookup p.1 = some rel ∧
          p.2 ≠ Value.vnone ∧ relatedExists db rel p.2 = false := by
  intro l
  induction l with
  | nil => simp [validate_fk_list, isErr]
  | cons hd tl ih =>
    obtain ⟨k, v⟩ := hd
    unfold validate_fk_list
    cases hl : m.fk_name_to_model.lookup k with
    | none => simp [hl, ih]
    | some rel =>
      by_cases hv : v = Value.vnone
      · subst hv
        simp [hl, ih]
      · by_cases hre : relatedExists db rel v
        · simp [hl, hv, hre, ih]
        · simp [hl, hv, hre, isErr]

/-- C2: the foreign-key validation helper raises exactly when some key of
the input is a foreign-key field carrying a non-None value for which no
related object with that primary key exists; keys that are not foreign-key
fields, and foreign-key fields set to None, never cause rejection. -/
theorem validate_fk_exists_characterization (m : ModelManager) (db : DB)
    (in_obj : Dict) :
    isErr (validate_fk_exists m db in_obj) = true ↔
      ∃ p ∈ in_obj, ∃ rel, m.fk_name_to_model.lookup p.1 = some rel ∧
        p.2 ≠ Value.vnone ∧ relatedExists db rel p.2 = false :=
  validate_fk_list_err_iff m db in_obj

/-- Witness for C2: a non-existent parent id is rejected on the concrete
manager, while a None foreign key is accepted. -/
theorem validate_fk_exists_witness :
    isErr (validate_fk_exists exM2 exDB2 [("parent_id", Value.vint 99)]) = true ∧
    isErr (validate_fk_exists exM2 exDB2 [("parent_id", Value.vnone)]) = false :=
  ⟨(validate_fk_exists_characterization exM2 exDB2 [("parent_id", Value.vint 99)]).mpr
      ⟨("parent_id", Value.vint 99), by decide, "parent", by decide, by decide, by decide⟩,
   by decide⟩

/-- Helper: error characterization of the unique-constraints loop. -/
theorem validate_constraints_list_err_iff (m : ModelManager) (db : DB) (in_obj : Dict) :
    ∀ (cs : List (List String)),
      isErr (validate_constraints_list m db in_obj cs) = true ↔
        ∃ uc ∈ cs, isErr (check_unique_constraint m db in_obj uc) = true := by
  intro cs
  induction cs with
  | nil => simp [validate_constraints_list, isErr]
  | cons c rest ih =>
    unfold validate_constraints_list
    cases hc : check_unique_constraint m db in_obj c with
    | error e => simp [hc, isErr]
    | ok u =>
      simp only [hc]
      rw [ih]
      constructor
      · rintro ⟨uc, hm, he⟩
        exact ⟨uc, List.mem_cons_of_mem _ hm, he⟩
      · rintro ⟨uc, hm, he⟩
        rcases List.mem_cons.mp hm with h | h
        · subst h
          rw [hc] at he
          simp [isErr] at he
        · exact ⟨uc, h, he⟩

/-- Helper: error characterization of the nullable-unique-constraints loop. -/
theorem validate_nullable_constraints_list_err_iff (m : ModelManager) (db : DB)
    (in_obj : Dict) :
    ∀ (cs : List (List String)),
      isErr (validate_nullable_constraints_list m db in_obj cs) = true ↔
        ∃ uc ∈ cs, isErr (check_nullable_unique_constraint m db in_obj uc) = true := by
  intro cs
  induction cs with
  | nil => simp [validate_nullable_constraints_list, isErr]
  | cons c rest ih =>
    unfold validate_nullable_constraints_list
    cases hc : check_nullable_unique_constraint m db in_obj c with
    | error e => simp [hc, isErr]
    | ok u =>
      simp only [hc]
      rw [ih]
      constructor
      · rintro ⟨uc, hm, he⟩
        exact ⟨uc, List.mem_cons_of_mem _ hm, he⟩
      · rintro ⟨uc, hm, he⟩
        rcases List.mem_cons.mp hm with h | h
        · subst h
          rw [hc] at he
          simp [isErr] at he
        · exact ⟨uc, h, he⟩

/-- Helper: a single non-nullable constraint check fails exactly when the
existence query over its non-None fields finds a row besides the object. -/
theorem check_unique_constraint_err_iff (m : ModelManager) (db : DB) (in_obj : Dict)
    (uc : List String) :
    isErr (check_unique_constraint m db in_obj uc) = true ↔
      mexists m db (some (idNotEq (getV in_obj "id"))) (constraint_query in_obj uc) = true := by
  unfold check_unique_constraint
  by_cases hex : mexists m db (some (idNotEq (getV in_obj "id"))) (constraint_query in_obj uc) <;>
    simp [hex, isErr]

/-- Helper: a single nullable constraint check fails exactly when no field
of the constraint is None and the all-fields existence query finds a row
besides the object. -/
theorem check_nullable_constraint_err_iff (m : ModelManager) (db : DB) (in_obj : Dict)
    (uc : List String) :
    isErr (check_nullable_unique_constraint m db in_obj uc) = true ↔
      (∀ f ∈ uc, getV in_obj f ≠ Value.vnone) ∧
      mexists m db (some (idNotEq (getV in_obj "id")))
        (uc.map (fun f => (f, getV in_obj f))) = true := by
  unfold check_nullable_unique_constraint
  by_cases ha : uc.any (fun f => getV in_obj f == Value.vnone)
  · simp only [ha, if_true]
    simp only [List.any_eq_true, beq_iff_eq] at ha
    obtain ⟨f, hf, hfeq⟩ := ha
    simp [isErr]
    intro hall
    exact absurd hfeq (hall f hf)
  · by_cases hex : mexists m db (some (idNotEq (getV in_obj "id")))
        (uc.map (fun f => (f, getV in_obj f)))
    · simp only [ha, if_false, Bool.false_eq_true, hex, if_true]
      simp only [List.any_eq_true, beq_iff_eq, not_exists] at ha
      simp [isErr, hex]
      intro f hf
      have := ha f
      simp [hf] at this
      exact this
    · simp [ha, hex, isErr]

/-- C5: a nullable-aware unique constraint is skipped entirely whenever any
of its fields is None in the effective input, and otherwise fails exactly
when the all-fields existence query finds a row other than the object
itself; a non-nullable unique constraint always issues its existence query
with the None-valued fields excluded, and fails exactly when that query
finds a row other than the object itself. -/
theorem nullable_unique_constraints_characterization (m : ModelManager) (db : DB)
    (in_obj : Dict) :
    (∀ uc ∈ m.nullable_unique_constraints, (∃ f ∈ uc, getV in_obj f = Value.vnone) →
      check_nullable_unique_constraint m db in_obj uc = .ok ()) ∧
    (isErr (validate_nullable_unique_constraints m db in_obj) = true ↔
      ∃ uc ∈ m.nullable_unique_constraints,
        (∀ f ∈ uc, getV in_obj f ≠ Value.vnone) ∧
        mexists m db (some (idNotEq (getV in_obj "id")))
          (uc.map (fun f => (f, getV in_obj f))) = true) ∧
    (isErr (validate_unique_constraints m db in_obj) = true ↔
      ∃ uc ∈ m.unique_constraints,
        mexists m db (some (idNotEq (getV in_obj "id")))
          (constraint_query in_obj uc) = true) := by
  refine ⟨?_, ?_, ?_⟩
  · intro uc _ hf
    unfold check_nullable_unique_constraint
    have ha : uc.any (fun f => getV in_obj f == Value.vnone) = true := by
      simp only [List.any_eq_true, beq_iff_eq]
      exact hf
    simp [ha]
  · rw [validate_nullable_unique_constraints,
      validate_nullable_constraints_list_err_iff]
    constructor
    · rintro ⟨uc, hmem, herr⟩
      exact ⟨uc, hmem, (check_nullable_constraint_err_iff m db in_obj uc).mp herr⟩
    · rintro ⟨uc, hmem, hprop⟩
      exact ⟨uc, hmem, (check_nullable_constraint_err_iff m db in_obj uc).mpr hprop⟩
  · rw [validate_unique_constraints, validate_constraints_list_err_iff]
    constructor
    · rintro ⟨uc, hmem, herr⟩
      exact ⟨uc, hmem, (check_unique_constraint_err_iff m db in_obj uc).mp herr⟩
    · rintro ⟨uc, hmem, hprop⟩
      exact ⟨uc, hmem, (check_unique_constraint_err_iff m db in_obj uc).mpr hprop⟩

/-- Witness for C5: on the concrete two-constraint manager, a None slug
skips the nullable constraint, while a duplicate title/parent pair fails
the non-nullable constraint. -/
theorem nullable_unique_constraints_witness :
    check_nullable_unique_constraint exM2 exDB2
      [("title", Value.vstr "t"), ("slug", Value.vnone)] ["title", "slug"] = .ok () ∧
    isErr (validate_unique_constraints exM2 exDB2
      [("title", Value.vstr "t"), ("slug", Value.vstr "zz"),
       ("parent_id", Value.vint 7)]) = true :=
  ⟨(nullable_unique_constraints_characterization exM2 exDB2
      [("title", Value.vstr "t"), ("slug", Value.vnone)]).1 ["title", "slug"]
      (by decide) ⟨"slug", by decide, by decide⟩,
   (nullable_unique_constraints_characterization exM2 exDB2
      [("title", Value.vstr "t"), ("slug", Value.vstr "zz"),
       ("parent_id", Value.vint 7)]).2.2.mpr
      ⟨["title", "parent_id"], by decide, by decide⟩⟩

/-- Does the result carry no HTTP exception with a status other than `c`? -/
def onlyStatus {α : Type} (c : Nat) : Except HTTPException α → Bool
  | .error e => e.status_code == c
  | .ok _ => true

/-- Helper: an error together with an only-status bound pins the status. -/
theorem errStatus_of_isErr_onlyStatus {α : Type} (c : Nat)
    (x : Except HTTPException α) (he : isErr x = true) (ho : onlyStatus c x = true) :
    errStatus x = some c := by
  cases x with
  | error e =>
    simp only [onlyStatus, beq_iff_eq] at ho
    simp [errStatus, ho]
  | ok a => simp [isErr] at he

/-- Helper: every exception of the foreign-key loop carries status 422. -/
theorem validate_fk_list_status (m : ModelManager) (db : DB) :
    ∀ (l : List (String × Value)),
      onlyStatus HTTP_422_UNPROCESSABLE_ENTITY (validate_fk_list m db l) = true := by
  intro l
  induction l with
  | nil => rfl
  | cons hd tl ih =>
    obtain ⟨k, v⟩ := hd
    unfold validate_fk_list
    cases hl : m.fk_name_to_model.lookup k with
    | none => exact ih
    | some rel =>
      by_cases hv : v = Value.vnone
      · simp [hv, ih]
      · by_cases hre : relatedExists db rel v
        · simp [hv, hre, ih]
        · simp [hv, hre, onlyStatus]

/-- Helper: every exception of the unique-columns loop carries status 422. -/
theorem validate_unique_columns_list_status (m : ModelManager) (db : DB)
    (db_obj : Option Dict) (in_obj : Dict) :
    ∀ (cols : List ColumnDef),
      onlyStatus HTTP_422_UNPROCESSABLE_ENTITY
        (validate_unique_columns_list m db db_obj in_obj cols) = true := by
  intro cols
  induction cols with
  | nil => rfl
  | cons col rest ih =>
    unfold validate_unique_columns_list
    cases hc : check_unique_column m db db_obj in_obj col with
    | error e =>
      have hs : e.status_code = HTTP_422_UNPROCESSABLE_ENTITY := by
        unfold check_unique_column at hc
        split at hc
        · split at hc
          · simp at hc
          · split at hc
            · cases hc
              rfl
            · simp at hc
        · simp at hc
      simp [onlyStatus, hs]
    | ok u => simpa [hc] using ih

/-- Helper: every exception of the unique-constraints loop carries 422. -/
theorem validate_constraints_list_status (m : ModelManager) (db : DB) (in_obj : Dict) :
    ∀ (cs : List (List String)),
      onlyStatus HTTP_422_UNPROCESSABLE_ENTITY
        (validate_constraints_list m db in_obj cs) = true := by
  intro cs
  induction cs with
  | nil => rfl
  | cons uc rest ih =>
    unfold validate_constraints_list
    cases hc : check_unique_constraint m db in_obj uc with
    | error e =>
      unfold check_unique_constraint at hc
      by_cases h : mexists m db (some (idNotEq (getV in_obj "id")))
          (constraint_query in_obj uc) = true
      · rw [if_pos h] at hc
        cases hc
        rfl
      · rw [if_neg h] at hc
        exact absurd hc (by simp)
    | ok u => simpa [hc] using ih

/-- Helper: every exception of the nullable-constraints loop carries 422. -/
theorem validate_nullable_constraints_list_status (m : ModelManager) (db : DB)
    (in_obj : Dict) :
    ∀ (cs : List (List String)),
      onlyStatus HTTP_422_UNPROCESSABLE_ENTITY
        (validate_nullable_constraints_list m db in_obj cs) = true := by
  intro cs
  induction cs with
  | nil => rfl
  | cons uc rest ih =>
    unfold validate_nullable_constraints_list
    cases hc : check_nullable_unique_constraint m db in_obj uc with
    | error e =>
      unfold check_nullable_unique_constraint at hc
      by_cases h1 : (uc.any fun f => getV in_obj f == Value.vnone) = true
      · rw [if_pos h1] at hc
        exact absurd hc (by simp)
      · rw [if_neg h1] at hc
        by_cases h2 : mexists m db (some (idNotEq (getV in_obj "id")))
            (uc.map fun f => (f, getV in_obj f)) = true
        · rw [if_pos h2] at hc
          cases hc
          rfl
        · rw [if_neg h2] at hc
          exact absurd hc (by simp)
    | ok u => simpa [hc] using ih

/-- Helper: sequencing two checks preserves an only-status bound. -/
theorem seq_onlyStatus {α : Type} (c : Nat) (x : Except HTTPException Unit)
    (k : Except HTTPException α) (hx : onlyStatus c x = true)
    (hk : onlyStatus c k = true) :
    onlyStatus c (match x with | .error e => .error e | .ok _ => k) = true := by
  cases x with
  | error e => exact hx
  | ok u => exact hk

/-- Helper: every exception of the whole validation pipeline carries 422. -/
theorem run_db_validation_status (m : ModelManager) (db : DB) (in_obj : Dict)
    (db_obj : Option Dict) :
    onlyStatus HTTP_422_UNPROCESSABLE_ENTITY
      (run_db_validation m db in_obj db_obj) = true := by
  unfold run_db_validation
  apply seq_onlyStatus
  · by_cases h : (!m.fk_name_to_model.isEmpty) = true
    · simp only [h, if_true]
      exact validate_fk_list_status m db _
    · simp only [h, if_false]
      rfl
  · apply seq_onlyStatus
    · exact validate_unique_columns_list_status m db db_obj _ _
    · apply seq_onlyStatus
      · exact validate_constraints_list_status m db _ _
      · apply seq_onlyStatus
        · exact validate_nullable_constraints_list_status m db _ _
        · rfl

/-- Helper: every exception of the legacy BaseCRUD unique-fields loop
carries status 400. -/
theorem crud_validate_unique_list_status (c : BaseCRUD) (db : DB)
    (db_obj : Option Dict) (in_obj : Dict) :
    ∀ (cols : List ColumnDef),
      onlyStatus HTTP_400_BAD_REQUEST
        (crud_validate_unique_list c db db_obj in_obj cols) = true := by
  intro cols
  induction cols with
  | nil => rfl
  | cons col rest ih =>
    unfold crud_validate_unique_list
    cases hc : crud_check_unique_column c db db_obj in_obj col with
    | error e =>
      have hs : e.status_code = HTTP_400_BAD_REQUEST := by
        unfold crud_check_unique_column at hc
        split at hc
        · split at hc
          · simp at hc
          · split at hc
            · cases hc
              rfl
            · simp at hc
        · simp at hc
      simp [onlyStatus, hs]
    | ok u => simpa [hc] using ih

/-- Helper: error characterization of the unique-columns loop. -/
theorem validate_unique_columns_list_err_iff (m : ModelManager) (db : DB)
    (db_obj : Option Dict) (in_obj : Dict) :
    ∀ (cols : List ColumnDef),
      isErr (validate_unique_columns_list m db db_obj in_obj cols) = true ↔
        ∃ col ∈ cols, isErr (check_unique_column m db db_obj in_obj col) = true := by
  intro cols
  induction cols with
  | nil => simp [validate_unique_columns_list, isErr]
  | cons col rest ih =>
    unfold validate_unique_columns_list
    cases hc : check_unique_column m db db_obj in_obj col with
    | error e => simp [hc, isErr]
    | ok u =>
      simp only [hc]
      rw [ih]
      constructor
      · rintro ⟨x, hm, he⟩
        exact ⟨x, List.mem_cons_of_mem _ hm, he⟩
      · rintro ⟨x, hm, he⟩
        rcases List.mem_cons.mp hm with h | h
        · subst h
          rw [hc] at he
          simp [isErr] at he
        · exact ⟨x, h, he⟩

/-- Counterexample for C1: a create input duplicating the existing unique
`title` raises status 422 (ModelManager) and status 400 (the legacy
BaseCRUD), and neither is the HTTP conflict/duplicate code 409. -/
theorem duplicate_not_conflict_status :
    errStatus (validate_unique_fields exM exDB [("title", Value.vstr "x")] none) =
      some HTTP_422_UNPROCESSABLE_ENTITY ∧
    errStatus (crud_validate_unique_fields ⟨"category", exModel.columns⟩ exDB
      [("title", Value.vstr "x")] none) = some HTTP_400_BAD_REQUEST ∧
    HTTP_422_UNPROCESSABLE_ENTITY ≠ HTTP_409_CONFLICT ∧
    HTTP_400_BAD_REQUEST ≠ HTTP_409_CONFLICT := by
  refine ⟨by decide, by decide, by decide, by decide⟩

/-- C1 (amended): every exception the validation and lookup helpers raise is
the framework's HTTPException; the ModelManager validators raise only status
422 for missing foreign keys and for duplicate unique-field or
unique-constraint values (not the 409 conflict code), the 404 lookups raise
only status 404, the legacy BaseCRUD unique-field validator raises only
status 400, and a duplicated unique-field value does raise, with status
422. -/
theorem validation_status_codes_amended (m : ModelManager) (c : BaseCRUD) (db : DB)
    (in_obj : Dict) (db_obj : Option Dict) (ob : Option OrderItem) (w : Option WhereC)
    (sf : List (String × Value)) (col : ColumnDef) :
    onlyStatus HTTP_422_UNPROCESSABLE_ENTITY (validate_fk_exists m db in_obj) = true ∧
    onlyStatus HTTP_422_UNPROCESSABLE_ENTITY
      (validate_unique_fields m db in_obj db_obj) = true ∧
    onlyStatus HTTP_422_UNPROCESSABLE_ENTITY
      (validate_unique_constraints m db in_obj) = true ∧
    onlyStatus HTTP_422_UNPROCESSABLE_ENTITY
      (validate_nullable_unique_constraints m db in_obj) = true ∧
    onlyStatus HTTP_422_UNPROCESSABLE_ENTITY
      (run_db_validation m db in_obj db_obj) = true ∧
    (∀ e, get_or_404 m db ob w sf = .error (.http e) →
      e.status_code = HTTP_404_NOT_FOUND) ∧
    onlyStatus HTTP_404_NOT_FOUND (exists_or_404 m db w sf) = true ∧
    onlyStatus HTTP_400_BAD_REQUEST
      (crud_validate_unique_fields c db in_obj db_obj) = true ∧
    (col ∈ m.model.columns → col.unique = true → dictHasKey in_obj col.name = true →
      getV in_obj col.name ≠ Value.vnone →
      mexists m db (some (idNotEq (getV in_obj "id")))
        [(col.name, getV in_obj col.name)] = true →
      errStatus (validate_unique_fields m db in_obj none) =
        some HTTP_422_UNPROCESSABLE_ENTITY) := by
  refine ⟨validate_fk_list_status m db in_obj,
    validate_unique_columns_list_status m db db_obj in_obj m.model.columns,
    validate_constraints_list_status m db in_obj m.unique_constraints,
    validate_nullable_constraints_list_status m db in_obj m.nullable_unique_constraints,
    run_db_validation_status m db in_obj db_obj,
    ?_, ?_,
    crud_validate_unique_list_status c db db_obj in_obj c.columns,
    ?_⟩
  · intro e h
    cases hg : mget m db ob w sf with
    | found d => simp [get_or_404, hg] at h
    | notFound =>
      simp only [get_or_404, hg, Except.error.injEq, AppError.http.injEq] at h
      subst h
      rfl
    | multiple => simp [get_or_404, hg] at h
  · by_cases hex : mexists m db w sf = true <;> simp [exists_or_404, hex, onlyStatus]
  · intro hmem hu hk hv hex
    apply errStatus_of_isErr_onlyStatus
    · rw [validate_unique_fields, validate_unique_columns_list_err_iff]
      refine ⟨col, hmem, ?_⟩
      unfold check_unique_column
      rw [if_pos (by simp [hu, hk, hv]), if_neg (by simp), if_pos hex]
      rfl
    · exact validate_unique_columns_list_status m db none in_obj m.model.columns

/-- Witness for C1 (amended): the concrete duplicate-title create input is
rejected with status 422 through the amended theorem's duplicate branch. -/
theorem validation_status_codes_witness :
    errStatus (validate_unique_fields exM exDB [("title", Value.vstr "x")] none) =
      some HTTP_422_UNPROCESSABLE_ENTITY :=
  (validation_status_codes_amended exM ⟨"category", exModel.columns⟩ exDB
      [("title", Value.vstr "x")] none none none []
      ⟨"title", false, true, false, none, none, .cstr⟩).2.2.2.2.2.2.2.2
    (by decide) rfl (by decide) (by decide) (by decide)

/-- Helper: lookup misses keys that are absent from an association list. -/
theorem lookup_none_of_not_mem {α β : Type} [BEq α] [LawfulBEq α] :
    ∀ (l : List (α × β)) (k : α), k ∉ l.map Prod.fst → l.lookup k = none := by
  intro l
  induction l with
  | nil => intro k _; rfl
  | cons p rest ih =>
    intro k hk
    simp only [List.map_cons, List.mem_cons, not_or] at hk
    obtain ⟨h1, h2⟩ := hk
    obtain ⟨a, b⟩ := p
    simp only [List.lookup]
    have : (k == a) = false := by
      simp only [beq_eq_false_iff_ne, ne_eq]
      exact h1
    rw [this]
    exact ih k h2

/-- Helper: the filter-expression handler keeps no key absent from its
input. -/
theorem handle_fe_lookup_not_mem :
    ∀ (fes : List (FExpr × Value)) (fe : FExpr), fe ∉ fes.map Prod.fst →
      (handle_filter_expressions fes).lookup fe = none := by
  intro fes
  induction fes with
  | nil => intro fe _; rfl
  | cons p rest ih =>
    intro fe hfe
    simp only [List.map_cons, List.mem_cons, not_or] at hfe
    obtain ⟨h1, h2⟩ := hfe
    have hne : (fe == p.1) = false := by
      simp only [beq_eq_false_iff_ne, ne_eq]
      exact h1
    unfold handle_filter_expressions
    simp only [List.filterMap_cons]
    by_cases hv : p.2 == Value.vnone
    · simp only [hv, if_true]
      exact ih fe h2
    · simp only [hv, Bool.false_eq_true, if_false]
      by_cases hi : containsSub p.1.strOf "ilike"
      · simp only [hi, if_true, List.lookup, hne]
        exact ih fe h2
      · simp only [hi, Bool.false_eq_true, if_false, List.lookup, hne]
        exact ih fe h2

/-- Helper: the nullable handler keeps no key absent from its input. -/
theorem handle_nfe_lookup_not_mem :
    ∀ (nfes : List (FExpr × Value)) (fe : FExpr), fe ∉ nfes.map Prod.fst →
      (handle_nullable_filter_expressions nfes).lookup fe = none := by
  intro nfes
  induction nfes with
  | nil => intro fe _; rfl
  | cons p rest ih =>
    intro fe hfe
    simp only [List.map_cons, List.mem_cons, not_or] at hfe
    obtain ⟨h1, h2⟩ := hfe
    have hne : (fe == p.1) = false := by
      simp only [beq_eq_false_iff_ne, ne_eq]
      exact h1
    unfold handle_nullable_filter_expressions
    simp only [List.filterMap_cons]
    by_cases hs : null_query_values.contains p.2
    · simp only [hs, if_true, List.lookup, hne]
      exact ih fe h2
    · simp only [hs, Bool.false_eq_true, if_false]
      by_cases hv : p.2 == Value.vnone
      · simp only [hv, if_true]
        exact ih fe h2
      · simp only [hv, Bool.false_eq_true, if_false]
        by_cases hi : containsSub p.1.strOf "ilike"
        · simp only [hi, if_true, List.lookup, hne]
          exact ih fe h2
        · simp only [hi, Bool.false_eq_true, if_false, List.lookup, hne]
          exact ih fe h2

/-- Helper: a None-valued filter expression is dropped by the handler. -/
theorem handle_fe_drops_none :
    ∀ (fes : List (FExpr × Value)) (fe : FExpr), (fes.map Prod.fst).Nodup →
      fes.lookup fe = some Value.vnone →
      (handle_filter_expressions fes).lookup fe = none := by
  intro fes
  induction fes with
  | nil => intro fe _ h; simp [List.lookup] at h
  | cons p rest ih =>
    intro fe hnd hl
    obtain ⟨k, v⟩ := p
    simp only [List.map_cons, List.nodup_cons] at hnd
    obtain ⟨hk, hnd2⟩ := hnd
    by_cases heq : fe = k
    · subst heq
      simp only [List.lookup, beq_self_eq_true] at hl
      cases hl
      unfold handle_filter_expressions
      simp only [List.filterMap_cons, beq_self_eq_true, if_true]
      exact handle_fe_lookup_not_mem rest fe hk
    · have hne : (fe == k) = false := by
        simp only [beq_eq_false_iff_ne, ne_eq]
        exact heq
      simp only [List.lookup, hne] at hl
      have htail := ih fe hnd2 hl
      unfold handle_filter_expressions at htail ⊢
      simp only [List.filterMap_cons]
      by_cases hv : v == Value.vnone
      · simp only [hv, if_true]
        exact htail
      · simp only [hv, Bool.false_eq_true, if_false]
        by_cases hi : containsSub (FExpr.strOf k) "ilike"
        · simp only [hi, if_true, List.lookup, hne]
          exact htail
        · simp only [hi, Bool.false_eq_true, if_false, List.lookup, hne]
          exact htail

/-- Helper: a None-valued nullable filter expression is dropped. -/
theorem handle_nfe_drops_none :
    ∀ (nfes : List (FExpr × Value)) (fe : FExpr), (nfes.map Prod.fst).Nodup →
      nfes.lookup fe = some Value.vnone →
      (handle_nullable_filter_expressions nfes).lookup fe = none := by
  intro nfes
  induction nfes with
  | nil => intro fe _ h; simp [List.lookup] at h
  | cons p rest ih =>
    intro fe hnd hl
    obtain ⟨k, v⟩ := p
    simp only [List.map_cons, List.nodup_cons] at hnd
    obtain ⟨hk, hnd2⟩ := hnd
    by_cases heq : fe = k
    · subst heq
      simp only [List.lookup, beq_self_eq_true] at hl
      cases hl
      unfold handle_nullable_filter_expressions
      have hs : null_query_values.contains Value.vnone = false := by decide
      simp only [List.filterMap_cons, hs, Bool.false_eq_true, if_false,
        beq_self_eq_true, if_true]
      exact handle_nfe_lookup_not_mem rest fe hk
    · have hne : (fe == k) = false := by
        simp only [beq_eq_false_iff_ne, ne_eq]
        exact heq
      simp only [List.lookup, hne] at hl
      have htail := ih fe hnd2 hl
      unfold handle_nullable_filter_expressions at htail ⊢
      simp only [List.filterMap_cons]
      by_cases hs : null_query_values.contains v
      · simp only [hs, if_true, List.lookup, hne]
        exact htail
      · simp only [hs, Bool.false_eq_true, if_false]
        by_cases hv : v == Value.vnone
        · simp only [hv, if_true]
          exact htail
        · simp only [hv, Bool.false_eq_true, if_false]
          by_cases hi : containsSub (FExpr.strOf k) "ilike"
          · simp only [hi, if_true, List.lookup, hne]
            exact htail
          · simp only [hi, Bool.false_eq_true, if_false, List.lookup, hne]
            exact htail

/-- Helper: a sentinel-valued nullable filter expression becomes an
equality comparison with None. -/
theorem handle_nfe_sentinel :
    ∀ (nfes : List (FExpr × Value)) (fe : FExpr) (v : Value),
      nfes.lookup fe = some v → v ∈ null_query_values →
      (handle_nullable_filter_expressions nfes).lookup fe = some Value.vnone := by
  intro nfes
  induction nfes with
  | nil => intro fe v h _; simp [List.lookup] at h
  | cons p rest ih =>
    intro fe v hl hv
    obtain ⟨k, v'⟩ := p
    by_cases heq : fe = k
    · subst heq
      simp only [List.lookup, beq_self_eq_true] at hl
      cases hl
      have hs : null_query_values.contains v = true := by
        simp only [List.contains_iff_exists_mem_beq]
        exact ⟨v, hv, by simp⟩
      unfold handle_nullable_filter_expressions
      simp only [List.filterMap_cons, hs, if_true, List.lookup, beq_self_eq_true]
    · have hne : (fe == k) = false := by
        simp only [beq_eq_false_iff_ne, ne_eq]
        exact heq
      simp only [List.lookup, hne] at hl
      have htail := ih fe v hl hv
      unfold handle_nullable_filter_expressions at htail ⊢
      simp only [List.filterMap_cons]
      by_cases hs : null_query_values.contains v'
      · simp only [hs, if_true, List.lookup, hne]
        exact htail
      · simp only [hs, Bool.false_eq_true, if_false]
        by_cases hv2 : v' == Value.vnone
        · simp only [hv2, if_true]
          exact htail
        · simp only [hv2, Bool.false_eq_true, if_false]
          by_cases hi : containsSub (FExpr.strOf k) "ilike"
          · simp only [hi, if_true, List.lookup, hne]
            exact htail
          · simp only [hi, Bool.false_eq_true, if_false, List.lookup, hne]
            exact htail

/-- Helper: removing optional simple filters introduces no new keys. -/
theorem remove_optional_lookup_not_mem :
    ∀ (sf : List (String × Value)) (k : String), k ∉ sf.map Prod.fst →
      (remove_optional_filter_bys sf).lookup k = none := by
  intro sf k h
  apply lookup_none_of_not_mem
  intro hmem
  apply h
  obtain ⟨p, hp, hpk⟩ := List.mem_map.mp hmem
  subst hpk
  exact List.mem_map_of_mem _ (List.mem_of_mem_filter hp)

/-- Helper: a None-valued simple filter is dropped. -/
theorem remove_optional_drops_none :
    ∀ (sf : List (String × Value)) (k : String), (sf.map Prod.fst).Nodup →
      sf.lookup k = some Value.vnone →
      (remove_optional_filter_bys sf).lookup k = none := by
  intro sf
  induction sf with
  | nil => intro k _ h; simp [List.lookup] at h
  | cons p rest ih =>
    intro k hnd hl
    obtain ⟨a, v⟩ := p
    simp only [List.map_cons, List.nodup_cons] at hnd
    obtain ⟨hk, hnd2⟩ := hnd
    by_cases heq : k = a
    · subst heq
      simp only [List.lookup, beq_self_eq_true] at hl
      cases hl
      unfold remove_optional_filter_bys
      simp only [List.filter_cons, bne_self_eq_false, Bool.false_eq_true, if_false]
      exact remove_optional_lookup_not_mem rest k hk
    · have hne : (k == a) = false := by
        simp only [beq_eq_false_iff_ne, ne_eq]
        exact heq
      simp only [List.lookup, hne] at hl
      have htail := ih k hnd2 hl
      unfold remove_optional_filter_bys at htail ⊢
      simp only [List.filter_cons]
      by_cases hv : (v != Value.vnone) = true
      · simp only [hv, if_true, List.lookup, hne]
        exact htail
      · simp only [hv, if_false]
        exact htail

/-- Helper: each `.filter()` conjunct added by the expression loop lands in
the row predicate conjunctively. -/
theorem rowMatches_apply_filter_expressions :
    ∀ (fes : List (FExpr × Value)) (st : Stmt) (row : Dict),
      rowMatches (apply_filter_expressions st fes) row =
        (rowMatches st row && fes.all (fun p => evalFExpr p.1 p.2 row)) := by
  intro fes
  induction fes with
  | nil =>
    intro st row
    simp [apply_filter_expressions]
  | cons p rest ih =>
    intro st row
    simp only [apply_filter_expressions, List.foldl_cons] at ih ⊢
    rw [ih]
    unfold rowMatches addWhere
    simp [List.all_append, Bool.and_assoc]

/-- C6: in list and paginated_list a simple filter, filter expression, or
nullable filter expression valued None contributes no predicate; a nullable
filter expression valued with the null-query sentinel becomes an equality
comparison with None, which evaluates as an IS NULL predicate; and every
remaining expression is applied as one conjunct of the assembled statement's
row predicate. -/
theorem list_filter_handling (m : ModelManager) (db : DB) (ob : Option OrderItem)
    (w : Option WhereC) (limit offset : Option Nat)
    (fes nfes : List (FExpr × Value)) (sf : List (String × Value))
    (fe : FExpr) (k : String) (col : String) (row : Dict) (v : Value) :
    ((sf.map Prod.fst).Nodup → sf.lookup k = some Value.vnone →
      (remove_optional_filter_bys sf).lookup k = none) ∧
    ((fes.map Prod.fst).Nodup → fes.lookup fe = some Value.vnone →
      (handle_filter_expressions fes).lookup fe = none) ∧
    ((nfes.map Prod.fst).Nodup → nfes.lookup fe = some Value.vnone →
      (handle_nullable_filter_expressions nfes).lookup fe = none) ∧
    (nfes.lookup fe = some v → v ∈ null_query_values →
      (handle_nullable_filter_expressions nfes).lookup fe = some Value.vnone) ∧
    (evalFExpr (.attr col) Value.vnone row = (getV row col == Value.vnone)) ∧
    (rowMatches (apply_filter_expressions
        (assemble_stmt m none ob w limit offset (remove_optional_filter_bys sf))
        (fexprUnion (handle_filter_expressions fes)
          (handle_nullable_filter_expressions nfes))) row =
      (rowMatches (assemble_stmt m none ob w limit offset
          (remove_optional_filter_bys sf)) row &&
        (fexprUnion (handle_filter_expressions fes)
          (handle_nullable_filter_expressions nfes)).all
          (fun p => evalFExpr p.1 p.2 row))) ∧
    (mlist m db ob fes nfes w limit offset sf =
      runStmt db (apply_filter_expressions
        (assemble_stmt m none ob w limit offset (remove_optional_filter_bys sf))
        (fexprUnion (handle_filter_expressions fes)
          (handle_nullable_filter_expressions nfes)))) ∧
    (paginated_list_rows m db ob fes nfes w sf =
      runStmt db (apply_filter_expressions
        (assemble_stmt m none ob w none none (remove_optional_filter_bys sf))
        (fexprUnion (handle_filter_expressions fes)
          (handle_nullable_filter_expressions nfes)))) := by
  refine ⟨remove_optional_drops_none sf k, handle_fe_drops_none fes fe,
    handle_nfe_drops_none nfes fe,
    (fun h hv => handle_nfe_sentinel nfes fe v h hv), rfl,
    rowMatches_apply_filter_expressions _ _ _, rfl, rfl⟩

/-- Witness for C6: concrete filter dictionaries where the None entry is
dropped and the sentinel entry becomes an IS NULL comparison. -/
theorem list_filter_handling_witness :
    (handle_filter_expressions [(FExpr.attr "a", Value.vnone)]).lookup
      (FExpr.attr "a") = none ∧
    (handle_nullable_filter_expressions [(FExpr.attr "a", Value.nullq)]).lookup
      (FExpr.attr "a") = some Value.vnone ∧
    (remove_optional_filter_bys [("b", Value.vnone)]).lookup "b" = none :=
  ⟨(list_filter_handling exM exDB none none none none
      [(FExpr.attr "a", Value.vnone)] [] [] (FExpr.attr "a") "b" "c" [] Value.vnone).2.1
      (by decide) (by decide),
   (list_filter_handling exM exDB none none none none []
      [(FExpr.attr "a", Value.nullq)] [] (FExpr.attr "a") "b" "c" [] Value.nullq).2.2.2.1
      (by decide) (by decide),
   (list_filter_handling exM exDB none none none none [] []
      [("b", Value.vnone)] (FExpr.attr "a") "b" "c" [] Value.vnone).1
      (by decide) (by decide)⟩

end FSTK
